import Mathlib

/-!
# Verification of the mesh2sdf repair pipeline (src/mesh2sdf/compute.py)

This file shallowly embeds the orchestrator `compute` of
`src/mesh2sdf/compute.py` and proves properties stated about it.

Modelling conventions:

* Scalar values (vertex coordinates, field samples, the `level` threshold)
  are rationals `ℚ`; floating-point rounding is not modelled.
* A triangle mesh is a vertex list plus a face list of index triples.
* The three external primitives are passed to `compute` as function
  parameters, so theorems quantify over every behaviour the primitives can
  have (constrained by their documented contracts where a claim needs it):
  - `gf` models `mesh2sdf.core.compute` (the GridField primitive),
  - `mc` models `skimage.measure.marching_cubes` (the IsoExtractor
    primitive); `none` models the `ValueError` it raises when the level is
    outside the field's value range,
  - `sp` models `trimesh.Trimesh.split` (the ComponentSplitter primitive).
* `trimesh.bounds.contains(bounds, points)` tests each point strictly
  inside the box (`points > bounds[0]` and `points < bounds[1]`
  componentwise); it is embedded as `ptInside`/`boundsContained`.
* `trimesh.Trimesh` objects compare by identity under `!=`, and the
  components produced by one `split` call are pairwise distinct objects,
  so the loop guard `c_other != c` is embedded as index inequality.
-/

/-- A 3-D point with rational coordinates. -/
abbrev Vtx := ℚ × ℚ × ℚ

/-- A triangular face: a triple of vertex indices. -/
abbrev Tri := ℕ × ℕ × ℕ

/-- A triangle soup: ordered vertices plus faces indexing into them. -/
structure Mesh where
  vertices : List Vtx
  faces : List Tri
deriving DecidableEq, Repr

/-- Default mesh used for out-of-range list indexing (never reached on the
in-range indices the code uses). -/
def mDefault : Mesh := ⟨[], []⟩

/-- A scalar field, flattened to a list of samples. -/
abbrev SField := List ℚ

/-- Componentwise minimum of two points. -/
def vmin (a b : Vtx) : Vtx := (min a.1 b.1, min a.2.1 b.2.1, min a.2.2 b.2.2)

/-- Componentwise maximum of two points. -/
def vmax (a b : Vtx) : Vtx := (max a.1 b.1, max a.2.1 b.2.1, max a.2.2 b.2.2)

/-- Lower corner of a mesh's axis-aligned bounding box
(`c.vertices.min(0)`, the first row of `c.bounds`). -/
def bbmin (m : Mesh) : Vtx :=
  match m.vertices with
  | [] => (0, 0, 0)
  | v :: vs => vs.foldl vmin v

/-- Upper corner of a mesh's axis-aligned bounding box
(`c.vertices.max(0)`, the second row of `c.bounds`). -/
def bbmax (m : Mesh) : Vtx :=
  match m.vertices with
  | [] => (0, 0, 0)
  | v :: vs => vs.foldl vmax v

/-- `trimesh.bounds.contains` membership test for one point: strictly
inside the box on every axis (`points > bounds[0]` and
`points < bounds[1]`). -/
def ptInside (lo hi p : Vtx) : Bool :=
  decide (lo.1 < p.1 ∧ p.1 < hi.1 ∧ lo.2.1 < p.2.1 ∧ p.2.1 < hi.2.1 ∧
          lo.2.2 < p.2.2 ∧ p.2.2 < hi.2.2)

/-- `all(trimesh.bounds.contains(outer.bounds, inner.bounds))`: both
corner points of `inner`'s bounding box lie strictly inside `outer`'s
bounding box. -/
def boundsContained (outer inner : Mesh) : Bool :=
  ptInside (bbmin outer) (bbmax outer) (bbmin inner) &&
  ptInside (bbmin outer) (bbmax outer) (bbmax inner)

/-- One test of the inner loop of the containment filter: component `j`
is another component (`c_other != c`, object identity, hence index
inequality) whose bounding box contains component `i`'s bounding box. -/
def containsHit (cs : List Mesh) (i j : ℕ) : Bool :=
  decide (j ≠ i) && boundsContained (cs.getD j mDefault) (cs.getD i mDefault)

/-- The inner loop computing `keep_flag` for component `i`: start from
`True`, and set `False` whenever some other component's box contains
component `i`'s box. -/
def keepFlag (cs : List Mesh) (i : ℕ) : Bool :=
  (List.range cs.length).foldl
    (fun acc j => if containsHit cs i j then false else acc) true

/-- The `keep_flags` list built by the outer loop over components. -/
def keepFlags (cs : List Mesh) : List Bool :=
  (List.range cs.length).map (keepFlag cs)

/-- `[comp for comp, keep in zip(components, keep_flags) if keep]`. -/
def filterKept (cs : List Mesh) : List Mesh :=
  ((cs.zip (keepFlags cs)).filter (fun p => p.2)).map (fun p => p.1)

/-- Shift a face's indices by an offset (used when concatenating vertex
arrays of several meshes). -/
def shiftTri (off : ℕ) (t : Tri) : Tri := (t.1 + off, t.2.1 + off, t.2.2 + off)

/-- Concatenation of two meshes: vertex arrays appended, the second
mesh's face indices offset by the first mesh's vertex count. -/
def concat2 (a b : Mesh) : Mesh :=
  ⟨a.vertices ++ b.vertices, a.faces ++ b.faces.map (shiftTri a.vertices.length)⟩

/-- `trimesh.util.concatenate` on a list of meshes. -/
def concatMeshes (cs : List Mesh) : Mesh := cs.foldl concat2 mDefault

/-- `(bbmax - bbmin).max()`: the largest bounding-box extent of a
component, the quantity the single-pick branch maximises. -/
def maxExtent (m : Mesh) : ℚ :=
  max (((bbmax m).1 - (bbmin m).1))
    (max ((bbmax m).2.1 - (bbmin m).2.1) ((bbmax m).2.2 - (bbmin m).2.2))

/-- `np.argmax`: index of the first occurrence of the maximum value
(`none` on the empty list, where numpy raises `ValueError`). -/
def argmaxQ : List ℚ → Option ℕ
  | [] => none
  | x :: rest =>
    match argmaxQ rest with
    | none => some 0
    | some i => if x < rest.getD i 0 then some (i + 1) else some 0

/-- Elementwise absolute value of a field (`np.abs(sdf)`). -/
def absField (f : SField) : SField := f.map (fun x => |x|)

/-- Maximum sample of a (nonempty) field, `volume.max()`. -/
def fieldMax (f : SField) : ℚ :=
  match f with
  | [] => 0
  | x :: xs => xs.foldl max x

/-- The renormalization applied to every vertex coordinate after the
shell selection: `v * (2.0 / (size - 1)) - 1.0`. -/
def renormCoord (size : ℕ) (v : ℚ) : ℚ := v * (2 / ((size : ℚ) - 1)) - 1

/-- `mesh.vertices = mesh.vertices * (2.0 / (size - 1)) - 1.0`, applied
to every coordinate of every vertex; faces unchanged. -/
def renormMesh (size : ℕ) (m : Mesh) : Mesh :=
  ⟨m.vertices.map (fun p =>
      (renormCoord size p.1, renormCoord size p.2.1, renormCoord size p.2.2)),
   m.faces⟩

/-- Failures escaping the pipeline. -/
inductive PErr where
  /-- The `ValueError` ("Surface level must be within volume data range")
  raised inside `skimage.measure.marching_cubes` when the requested level
  lies outside the field's value range. -/
  | degenerateLevel
  /-- The incidental error escaping from library internals when the
  component list is empty: `trimesh.util.concatenate` on zero meshes
  followed by the `.vertices` assignment (containment branch), or
  `np.argmax` of an empty sequence (single-pick branch). `compute.py`
  itself performs no emptiness check. -/
  | libraryCrash
deriving DecidableEq, Repr

/-- The shape of a successful return: the field alone, or the field
paired with the mesh (`return_mesh=True`). -/
inductive Ret where
  | field (sdf : SField)
  | fieldMesh (sdf : SField) (mesh : Mesh)
deriving DecidableEq, Repr

/-- Shallow embedding of `compute` from `src/mesh2sdf/compute.py`.

`gf`, `mc`, `sp` are the external primitives (GridField, IsoExtractor,
ComponentSplitter); the remaining arguments are the Python parameters in
order: `vertices, faces, size, fix, level, return_mesh, new_fix`. -/
def compute (gf : List Vtx → List Tri → ℕ → SField)
    (mc : SField → ℚ → Option Mesh)
    (sp : Mesh → List Mesh)
    (vertices : List Vtx) (faces : List Tri)
    (size : ℕ) (fix : Bool) (level : ℚ) (return_mesh : Bool)
    (new_fix : Bool) : Except PErr Ret :=
  let sdf := gf vertices faces size
  if fix then
    let sdf2 := absField sdf
    match mc sdf2 level with
    | none => .error .degenerateLevel
    | some mesh =>
      let components := sp mesh
      let sel : Except PErr Mesh :=
        if new_fix then
          let kept := filterKept components
          if kept = [] then .error .libraryCrash
          else .ok (concatMeshes kept)
        else
          match argmaxQ (components.map maxExtent) with
          | none => .error .libraryCrash
          | some max_component => .ok (components.getD max_component mDefault)
      match sel with
      | .error e => .error e
      | .ok mesh2 =>
        let mesh3 := renormMesh size mesh2
        let sdf3 := gf mesh3.vertices mesh3.faces size
        .ok (if return_mesh then .fieldMesh sdf3 mesh3 else .field sdf3)
  else
    .ok (if return_mesh then .fieldMesh sdf ⟨vertices, faces⟩ else .field sdf)

/-! ## Spec-side definitions

The following definitions are written from the specification's wording,
to be compared with the source-derived definitions above (refinement).
-/

/-- Spec wording (§4.4): a component is kept iff no other component's
bounding box contains it. Declarative counterpart of `keepFlag`. -/
def specKeep (cs : List Mesh) (i : ℕ) : Bool :=
  decide (∀ j, j < cs.length → j ≠ i →
    boundsContained (cs.getD j mDefault) (cs.getD i mDefault) = false)

/-- Declarative keep list following the spec's wording. -/
def specFlags (cs : List Mesh) : List Bool :=
  (List.range cs.length).map (specKeep cs)

/-- Spec wording (§4.4): the ShellSelector, as one of the two policies.
With `containment = true`, keep exactly the components no other
component's bounding box contains; otherwise keep only the single-pick
survivor. -/
def specShellSelect (cs : List Mesh) (containment : Bool) : List Mesh :=
  if containment then
    ((cs.zip (specFlags cs)).filter (fun p => p.2)).map (fun p => p.1)
  else
    match argmaxQ (cs.map maxExtent) with
    | none => []
    | some i => [cs.getD i mDefault]

/-- Spec wording (§2): the repair flow
field → abs(field) → IsoExtractor at threshold level → soup →
ComponentSplitter → components → ShellSelector → kept components →
merge → Renormalizer → repaired mesh → GridField (second pass). -/
def specRepairPipeline (gf : List Vtx → List Tri → ℕ → SField)
    (mc : SField → ℚ → Option Mesh)
    (sp : Mesh → List Mesh)
    (vertices : List Vtx) (faces : List Tri)
    (size : ℕ) (level : ℚ) (return_mesh : Bool)
    (containment : Bool) : Except PErr Ret :=
  let field := gf vertices faces size
  let a := absField field
  match mc a level with
  | none => .error .degenerateLevel
  | some soup =>
    let components := sp soup
    let kept := specShellSelect components containment
    if kept = [] then .error .libraryCrash
    else
      let merged := concatMeshes kept
      let repaired := renormMesh size merged
      let field2 := gf repaired.vertices repaired.faces size
      .ok (if return_mesh then .fieldMesh field2 repaired else .field field2)

/-- The squared length of a bounding box's diagonal. The spec's phrase
"largest bounding-box diagonal" read literally: the Euclidean length of
`bbmax - bbmin` (compared through its square, which is order-equivalent
for nonnegative lengths). -/
def diagSq (m : Mesh) : ℚ :=
  ((bbmax m).1 - (bbmin m).1) ^ 2 + ((bbmax m).2.1 - (bbmin m).2.1) ^ 2 +
    ((bbmax m).2.2 - (bbmin m).2.2) ^ 2

/-- Sum of the three bounding-box extents; strictly grows along strict
bounding-box containment, so a component maximising it is never
discarded by the containment filter. -/
def sumExtent (m : Mesh) : ℚ :=
  ((bbmax m).1 - (bbmin m).1) + ((bbmax m).2.1 - (bbmin m).2.1) +
    ((bbmax m).2.2 - (bbmin m).2.2)

/-- The parameter names and default-value literals of `compute`, read off
the `def compute(...)` line of `src/mesh2sdf/compute.py`. -/
def computeSignature : List (String × Option String) :=
  [("vertices", none), ("faces", none), ("size", some "128"),
   ("fix", some "False"), ("level", some "0.015"),
   ("return_mesh", some "False"), ("new_fix", some "True")]

/-- The parameter names and default-value literals the specification (§6)
claims for the public entry point. -/
def computeSignatureSpec : List (String × Option String) :=
  [("vertices", none), ("faces", none), ("size", some "128"),
   ("fix", some "False"), ("level", some "0.015"),
   ("return_mesh", some "False"), ("shell_policy", some "CONTAINMENT")]

/-! ## Helper lemmas -/

/-- The flag-setting loop is an `all` over the iterated list: the
accumulator survives iff no iteration hits. -/
theorem foldl_setFalse_eq_all (hit : ℕ → Bool) (l : List ℕ) (acc : Bool) :
    l.foldl (fun a j => if hit j then false else a) acc =
      (acc && l.all (fun j => !hit j)) := by
  induction l generalizing acc with
  | nil => simp
  | cons j l ih =>
    rw [List.foldl_cons, List.all_cons]
    cases h : hit j
    · rw [if_neg (by simp [h]), ih]
      simp [h]
    · rw [if_pos (by simp [h]), ih]
      simp [h]

/-- A single inner-loop test misses exactly when being a distinct
component implies non-containment. -/
theorem not_containsHit_iff (cs : List Mesh) (i j : ℕ) :
    (!containsHit cs i j) = true ↔
      (j ≠ i → boundsContained (cs.getD j mDefault) (cs.getD i mDefault) = false) := by
  by_cases hji : j = i
  · subst hji
    simp [containsHit]
  · simp [containsHit, hji]

/-- The imperative `keep_flag` loop agrees with the spec's declarative
characterisation: kept iff no other component's box contains this one. -/
theorem keepFlag_eq_specKeep (cs : List Mesh) (i : ℕ) :
    keepFlag cs i = specKeep cs i := by
  have h : keepFlag cs i = true ↔ specKeep cs i = true := by
    unfold keepFlag specKeep
    rw [foldl_setFalse_eq_all]
    simp only [Bool.true_and, List.all_eq_true, List.mem_range, decide_eq_true_eq]
    constructor
    · intro h j hj hne
      exact (not_containsHit_iff cs i j).mp (h j hj) hne
    · intro h j hj
      exact (not_containsHit_iff cs i j).mpr (h j hj)
  cases hk : keepFlag cs i <;> cases hs : specKeep cs i <;> simp_all

/-- `keep_flags` agrees with its declarative counterpart. -/
theorem keepFlags_eq_specFlags (cs : List Mesh) :
    keepFlags cs = specFlags cs := by
  unfold keepFlags specFlags
  exact List.map_congr_left (fun i _ => keepFlag_eq_specKeep cs i)

/-- Filtering a list against positionally-computed flags equals indexing
the positions whose flag holds. -/
theorem zip_filter_map_range (cs : List Mesh) (f : ℕ → Bool) :
    ((cs.zip ((List.range cs.length).map f)).filter (fun p => p.2)).map
        (fun p => p.1) =
      ((List.range cs.length).filter f).map (fun i => cs.getD i mDefault) := by
  induction cs generalizing f with
  | nil => simp
  | cons c cs ih =>
    have e2 : ((List.range cs.length).map Nat.succ).filter f =
        ((List.range cs.length).filter (f ∘ Nat.succ)).map Nat.succ :=
      List.filter_map Nat.succ (List.range cs.length)
    have e3 : ∀ l : List ℕ,
        (l.map Nat.succ).map (fun i => (c :: cs).getD i mDefault) =
          l.map (fun i => cs.getD i mDefault) := by
      intro l
      rw [List.map_map]
      exact List.map_congr_left (fun i _ => by simp [Function.comp, List.getD_cons_succ])
    rw [List.length_cons, List.range_succ_eq_map, List.map_cons, List.zip_cons_cons,
      List.filter_cons, List.filter_cons, List.map_map, e2]
    cases hf : f 0
    · rw [if_neg (by simp [hf]), if_neg (by simp [hf]), ih (f ∘ Nat.succ), e3]
    · rw [if_pos (by simp [hf]), if_pos (by simp [hf]), List.map_cons, List.map_cons,
        ih (f ∘ Nat.succ), e3]
      rfl

/-- The kept-component list, re-expressed through kept positions. -/
theorem filterKept_eq_positions (cs : List Mesh) :
    filterKept cs =
      ((List.range cs.length).filter (keepFlag cs)).map
        (fun i => cs.getD i mDefault) := by
  unfold filterKept keepFlags
  exact zip_filter_map_range cs (keepFlag cs)

/-- The source's kept-component list coincides with the spec-worded
containment ShellSelector. -/
theorem filterKept_eq_specShellSelect (cs : List Mesh) :
    filterKept cs = specShellSelect cs true := by
  unfold filterKept specShellSelect
  rw [keepFlags_eq_specFlags]
  simp

/-- `np.argmax` fails exactly on the empty sequence. -/
theorem argmaxQ_eq_none_iff (xs : List ℚ) : argmaxQ xs = none ↔ xs = [] := by
  cases xs with
  | nil => simp [argmaxQ]
  | cons x rest =>
    simp only [argmaxQ]
    constructor
    · intro h
      exfalso
      cases hr : argmaxQ rest <;> rw [hr] at h
      · exact Option.noConfusion h
      · split at h
        · exact Option.noConfusion h
        · split at h <;> exact Option.noConfusion h
    · intro h
      exact absurd h (List.cons_ne_nil x rest)

/-- The index returned by `np.argmax` is in range, attains the maximum,
and is the first index attaining it. -/
theorem argmaxQ_spec (xs : List ℚ) (i : ℕ) (h : argmaxQ xs = some i) :
    i < xs.length ∧ (∀ j, j < xs.length → xs.getD j 0 ≤ xs.getD i 0) ∧
      (∀ j, j < i → xs.getD j 0 < xs.getD i 0) := by
  induction xs generalizing i with
  | nil => simp [argmaxQ] at h
  | cons x rest ih =>
    simp only [argmaxQ] at h
    cases hr : argmaxQ rest with
    | none =>
      rw [hr] at h
      have h2 : some 0 = some i := h
      have hi0 : i = 0 := by simpa using h2.symm
      subst hi0
      have hrest : rest = [] := (argmaxQ_eq_none_iff rest).mp hr
      subst hrest
      refine ⟨by simp, ?_, by omega⟩
      intro j hj
      have hj0 : j = 0 := by
        simp only [List.length_cons, List.length_nil] at hj
        omega
      subst hj0
      exact le_refl _
    | some i2 =>
      rw [hr] at h
      have h2 : (if x < rest.getD i2 0 then some (i2 + 1) else some 0) = some i := h
      obtain ⟨hlen, hmax, hfirst⟩ := ih i2 hr
      by_cases hx : x < rest.getD i2 0
      · rw [if_pos hx] at h2
        have hi : i = i2 + 1 := by simpa using h2.symm
        subst hi
        refine ⟨by simpa using hlen, ?_, ?_⟩
        · intro j hj
          cases j with
          | zero => simpa using le_of_lt hx
          | succ k =>
            simp only [List.getD_cons_succ]
            exact hmax k (by simp only [List.length_cons] at hj; omega)
        · intro j hj
          cases j with
          | zero => simpa using hx
          | succ k =>
            simp only [List.getD_cons_succ]
            exact hfirst k (by omega)
      · rw [if_neg hx] at h2
        have hi : i = 0 := by simpa using h2.symm
        subst hi
        refine ⟨by simp, ?_, by omega⟩
        intro j hj
        cases j with
        | zero => simp
        | succ k =>
          simp only [List.getD_cons_succ, List.getD_cons_zero]
          exact le_trans (hmax k (by simp only [List.length_cons] at hj; omega))
            (not_lt.mp hx)

/-- Evaluating a mapped list at an in-range position. -/
theorem getD_map_q (g : Mesh → ℚ) (cs : List Mesh) (k : ℕ) (hk : k < cs.length) :
    (cs.map g).getD k 0 = g (cs.getD k mDefault) := by
  rw [List.getD_eq_getElem _ _ (by simpa using hk), List.getD_eq_getElem _ _ hk]
  simp

/-- Strict bounding-box containment strictly shrinks the sum of the three
bounding-box extents. -/
theorem contained_sumExtent_lt (outer inner : Mesh)
    (h : boundsContained outer inner = true) :
    sumExtent inner < sumExtent outer := by
  unfold boundsContained ptInside at h
  rw [Bool.and_eq_true] at h
  obtain ⟨h1, h2⟩ := h
  rw [decide_eq_true_eq] at h1 h2
  unfold sumExtent
  obtain ⟨a1, a2, a3, a4, a5, a6⟩ := h1
  obtain ⟨b1, b2, b3, b4, b5, b6⟩ := h2
  linarith

/-- In a nonempty component list, the containment filter keeps at least
one component: a component of maximal extent sum is contained in no
other. -/
theorem exists_kept (cs : List Mesh) (h : cs ≠ []) :
    ∃ i, i < cs.length ∧ keepFlag cs i = true := by
  have hne : cs.map sumExtent ≠ [] := by
    intro hcon
    exact h (List.map_eq_nil_iff.mp hcon)
  obtain ⟨i, hi⟩ : ∃ i, argmaxQ (cs.map sumExtent) = some i := by
    cases harg : argmaxQ (cs.map sumExtent) with
    | none => exact absurd ((argmaxQ_eq_none_iff _).mp harg) hne
    | some i => exact ⟨i, rfl⟩
  obtain ⟨hlen, hmax, _⟩ := argmaxQ_spec _ _ hi
  rw [List.length_map] at hlen
  refine ⟨i, hlen, ?_⟩
  rw [keepFlag_eq_specKeep]
  unfold specKeep
  rw [decide_eq_true_eq]
  intro j hj hne2
  cases hb : boundsContained (cs.getD j mDefault) (cs.getD i mDefault) with
  | false => rfl
  | true =>
    have hlt := contained_sumExtent_lt _ _ hb
    have hle := hmax j (by rw [List.length_map]; exact hj)
    rw [getD_map_q _ _ _ hj, getD_map_q _ _ _ hlen] at hle
    exact absurd hle (not_le.mpr hlt)

/-- The containment ShellSelector never discards all components of a
nonempty component list. -/
theorem filterKept_ne_nil (cs : List Mesh) (h : cs ≠ []) : filterKept cs ≠ [] := by
  obtain ⟨i, hlen, hkeep⟩ := exists_kept cs h
  rw [filterKept_eq_positions]
  intro hcon
  rw [List.map_eq_nil_iff] at hcon
  have hmem : i ∈ (List.range cs.length).filter (keepFlag cs) := by
    rw [List.mem_filter]
    exact ⟨List.mem_range.mpr hlen, hkeep⟩
  rw [hcon] at hmem
  exact absurd hmem (List.not_mem_nil i)

/-- A singleton merge returns the mesh itself. -/
theorem concatMeshes_singleton (m : Mesh) : concatMeshes [m] = m := by
  unfold concatMeshes concat2 mDefault
  simp only [List.foldl_cons, List.foldl_nil, List.nil_append, List.length_nil]
  cases m with
  | mk v f =>
    have hs : ∀ t : Tri, shiftTri 0 t = t := by
      intro t
      simp [shiftTri]
    have hm : List.map (shiftTri 0) f = f := by
      calc List.map (shiftTri 0) f = List.map id f :=
            List.map_congr_left (fun t _ => hs t)
        _ = f := List.map_id f
    simp [hm]

/-- Unfolding `compute` on the no-repair path. -/
theorem compute_fix_false (gf : List Vtx → List Tri → ℕ → SField)
    (mc : SField → ℚ → Option Mesh) (sp : Mesh → List Mesh)
    (V : List Vtx) (F : List Tri) (size : ℕ) (level : ℚ)
    (rm nf : Bool) :
    compute gf mc sp V F size false level rm nf =
      .ok (if rm then Ret.fieldMesh (gf V F size) ⟨V, F⟩
           else Ret.field (gf V F size)) := rfl

/-- Unfolding `compute` when extraction fails. -/
theorem compute_mc_none (gf : List Vtx → List Tri → ℕ → SField)
    (mc : SField → ℚ → Option Mesh) (sp : Mesh → List Mesh)
    (V : List Vtx) (F : List Tri) (size : ℕ) (level : ℚ) (rm nf : Bool)
    (h : mc (absField (gf V F size)) level = none) :
    compute gf mc sp V F size true level rm nf = .error .degenerateLevel := by
  unfold compute
  simp only [if_true, h]

/-- Unfolding `compute` on the containment-policy repair path. -/
theorem compute_containment_ok (gf : List Vtx → List Tri → ℕ → SField)
    (mc : SField → ℚ → Option Mesh) (sp : Mesh → List Mesh)
    (V : List Vtx) (F : List Tri) (size : ℕ) (level : ℚ) (rm : Bool)
    (soup : Mesh)
    (h : mc (absField (gf V F size)) level = some soup)
    (hk : filterKept (sp soup) ≠ []) :
    compute gf mc sp V F size true level rm true =
      .ok (if rm then
            Ret.fieldMesh
              (gf (renormMesh size (concatMeshes (filterKept (sp soup)))).vertices
                  (renormMesh size (concatMeshes (filterKept (sp soup)))).faces size)
              (renormMesh size (concatMeshes (filterKept (sp soup))))
          else
            Ret.field
              (gf (renormMesh size (concatMeshes (filterKept (sp soup)))).vertices
                  (renormMesh size (concatMeshes (filterKept (sp soup)))).faces size)) := by
  unfold compute
  simp only [if_true, h, if_neg hk]

/-- Unfolding `compute` on the single-pick repair path. -/
theorem compute_singlepick_ok (gf : List Vtx → List Tri → ℕ → SField)
    (mc : SField → ℚ → Option Mesh) (sp : Mesh → List Mesh)
    (V : List Vtx) (F : List Tri) (size : ℕ) (level : ℚ) (rm : Bool)
    (soup : Mesh) (i : ℕ)
    (h : mc (absField (gf V F size)) level = some soup)
    (ha : argmaxQ ((sp soup).map maxExtent) = some i) :
    compute gf mc sp V F size true level rm false =
      .ok (if rm then
            Ret.fieldMesh
              (gf (renormMesh size ((sp soup).getD i mDefault)).vertices
                  (renormMesh size ((sp soup).getD i mDefault)).faces size)
              (renormMesh size ((sp soup).getD i mDefault))
          else
            Ret.field
              (gf (renormMesh size ((sp soup).getD i mDefault)).vertices
                  (renormMesh size ((sp soup).getD i mDefault)).faces size)) := by
  unfold compute
  simp only [if_true, h, ha, Bool.false_eq_true, if_false]

/-- Unfolding `compute` when the splitter returns zero components:
both policies crash inside library internals. -/
theorem compute_empty_components (gf : List Vtx → List Tri → ℕ → SField)
    (mc : SField → ℚ → Option Mesh) (sp : Mesh → List Mesh)
    (V : List Vtx) (F : List Tri) (size : ℕ) (level : ℚ) (rm nf : Bool)
    (soup : Mesh)
    (h : mc (absField (gf V F size)) level = some soup)
    (hsp : sp soup = []) :
    compute gf mc sp V F size true level rm nf = .error .libraryCrash := by
  unfold compute
  simp only [if_true, h, hsp]
  cases nf <;> simp [filterKept, keepFlags, argmaxQ]

/-- Unfolding `compute` when the containment filter keeps nothing. -/
theorem compute_containment_err (gf : List Vtx → List Tri → ℕ → SField)
    (mc : SField → ℚ → Option Mesh) (sp : Mesh → List Mesh)
    (V : List Vtx) (F : List Tri) (size : ℕ) (level : ℚ) (rm : Bool)
    (soup : Mesh)
    (h : mc (absField (gf V F size)) level = some soup)
    (hk : filterKept (sp soup) = []) :
    compute gf mc sp V F size true level rm true = .error .libraryCrash := by
  unfold compute
  simp only [if_true, h, hk]

/-- Unfolding `compute` when `np.argmax` sees an empty sequence. -/
theorem compute_singlepick_err (gf : List Vtx → List Tri → ℕ → SField)
    (mc : SField → ℚ → Option Mesh) (sp : Mesh → List Mesh)
    (V : List Vtx) (F : List Tri) (size : ℕ) (level : ℚ) (rm : Bool)
    (soup : Mesh)
    (h : mc (absField (gf V F size)) level = some soup)
    (ha : argmaxQ ((sp soup).map maxExtent) = none) :
    compute gf mc sp V F size true level rm false = .error .libraryCrash := by
  unfold compute
  simp only [if_true, h, ha, Bool.false_eq_true, if_false]

/-! ## Claim theorems -/

/-- C6: For every input with `fix=False`, exactly one GridField pass runs
and its raw field is returned unchanged: the result is determined by the
single application `gf vertices faces size` alone, for every possible
behaviour of the extraction and splitting primitives, so no absolute
value, iso-extraction, component selection, renormalization, or second
GridField pass can occur or influence the result. -/
theorem no_fix_single_pass (gf : List Vtx → List Tri → ℕ → SField)
    (mc : SField → ℚ → Option Mesh) (sp : Mesh → List Mesh)
    (V : List Vtx) (F : List Tri) (size : ℕ) (level : ℚ) (rm nf : Bool) :
    compute gf mc sp V F size false level rm nf =
      .ok (if rm then Ret.fieldMesh (gf V F size) ⟨V, F⟩
           else Ret.field (gf V F size)) := rfl

/-- C7: For every input with `fix=True`, the repair branch first replaces
the first-pass field by its element-wise absolute value and only then
extracts the iso-surface at threshold `level`, then splits into
components, selects the shell, merges, renormalizes, and runs the second
GridField pass, in that order: `compute` coincides with
`specRepairPipeline`, the pipeline written step by step in the spec's
stage order, under either shell policy. -/
theorem repair_order_refines_spec (gf : List Vtx → List Tri → ℕ → SField)
    (mc : SField → ℚ → Option Mesh) (sp : Mesh → List Mesh)
    (V : List Vtx) (F : List Tri) (size : ℕ) (level : ℚ) (rm nf : Bool) :
    compute gf mc sp V F size true level rm nf =
      specRepairPipeline gf mc sp V F size level rm nf := by
  unfold compute specRepairPipeline
  simp only [if_true]
  cases hmc : mc (absField (gf V F size)) level with
  | none => rfl
  | some soup =>
    cases nf with
    | true =>
      simp only [if_true]
      rw [← filterKept_eq_specShellSelect]
      by_cases hk : filterKept (sp soup) = []
      · rw [if_pos hk, if_pos hk]
      · rw [if_neg hk, if_neg hk]
    | false =>
      unfold specShellSelect
      simp only [Bool.false_eq_true, if_false]
      cases ha : argmaxQ ((sp soup).map maxExtent) with
      | none => rfl
      | some i =>
        rw [if_neg (List.cons_ne_nil _ _), concatMeshes_singleton]

/-- C4: If `level` exceeds the maximum of the absolute-valued first-pass
field, the pipeline fails with the degenerate-level-set error — the
`ValueError` the extraction primitive raises when the level is outside
the field's data range, reflected by the contract hypothesis `hmc` —
before ComponentSplitter is ever consulted: the result is this error for
every splitter `sp`, and no empty or garbage mesh is produced. -/
theorem degenerate_level_aborts (gf : List Vtx → List Tri → ℕ → SField)
    (mc : SField → ℚ → Option Mesh) (sp : Mesh → List Mesh)
    (V : List Vtx) (F : List Tri) (size : ℕ) (level : ℚ) (rm nf : Bool)
    (hmc : ∀ f l, fieldMax f < l → mc f l = none)
    (hlvl : fieldMax (absField (gf V F size)) < level) :
    compute gf mc sp V F size true level rm nf = .error .degenerateLevel :=
  compute_mc_none gf mc sp V F size level rm nf
    (hmc (absField (gf V F size)) level hlvl)

/-- Witness for C4: a concrete field with maximum absolute value `2` and
`level = 3` makes the pipeline abort with the degenerate-level error. -/
theorem degenerate_level_aborts_witness :
    compute (fun _ _ _ => [1, -2])
      (fun f l => if fieldMax f < l then none else some mDefault)
      (fun _ => []) [] [] 4 true 3 false true = .error .degenerateLevel :=
  degenerate_level_aborts (fun _ _ _ => [1, -2])
    (fun f l => if fieldMax f < l then none else some mDefault)
    (fun _ => []) [] [] 4 3 false true
    (fun f l h => by simp [h]) (by decide)

/-- C3: During repair with the containment policy, every vertex
coordinate `v` of the merged selected components is renormalized to
exactly `v * (2 / (size - 1)) - 1`, per coordinate, and it is exactly
this renormalized mesh that the second GridField pass receives. -/
theorem renormalization_formula (gf : List Vtx → List Tri → ℕ → SField)
    (mc : SField → ℚ → Option Mesh) (sp : Mesh → List Mesh)
    (V : List Vtx) (F : List Tri) (size : ℕ) (level : ℚ) (rm : Bool)
    (soup : Mesh)
    (h : mc (absField (gf V F size)) level = some soup)
    (hk : filterKept (sp soup) ≠ []) :
    compute gf mc sp V F size true level rm true =
      (let merged := concatMeshes (filterKept (sp soup))
       let repaired : Mesh :=
         ⟨merged.vertices.map (fun p =>
            (p.1 * (2 / ((size : ℚ) - 1)) - 1,
             p.2.1 * (2 / ((size : ℚ) - 1)) - 1,
             p.2.2 * (2 / ((size : ℚ) - 1)) - 1)),
          merged.faces⟩
       .ok (if rm then Ret.fieldMesh (gf repaired.vertices repaired.faces size) repaired
            else Ret.field (gf repaired.vertices repaired.faces size))) := by
  rw [compute_containment_ok gf mc sp V F size level rm soup h hk]
  rfl

/-- Witness for C3: one concrete component; its vertex `(1, 2, 3)` is
renormalized at `size = 3` to `(0, 1, 2)`. -/
theorem renormalization_formula_witness :
    compute (fun _ _ _ => []) (fun _ _ => some mDefault)
      (fun _ => [⟨[(1, 2, 3)], [(0, 0, 0)]⟩]) [] [] 3 true 0 true true =
      (let merged := concatMeshes (filterKept
        ((fun _ => [(⟨[(1, 2, 3)], [(0, 0, 0)]⟩ : Mesh)]) mDefault))
       let repaired : Mesh :=
         ⟨merged.vertices.map (fun p =>
            (p.1 * (2 / ((3 : ℚ) - 1)) - 1,
             p.2.1 * (2 / ((3 : ℚ) - 1)) - 1,
             p.2.2 * (2 / ((3 : ℚ) - 1)) - 1)),
          merged.faces⟩
       .ok (Ret.fieldMesh ((fun _ _ _ => ([] : SField)) repaired.vertices repaired.faces 3)
              repaired)) :=
  renormalization_formula (fun _ _ _ => []) (fun _ _ => some mDefault)
    (fun _ => [⟨[(1, 2, 3)], [(0, 0, 0)]⟩]) [] [] 3 0 true mDefault
    rfl (by decide)

/-- C9: `return_mesh=True` pairs the field with the mesh that produced
it, for every input: with `fix=False` the input mesh itself
(`trimesh.Trimesh(vertices, faces)`, modelled as the mesh holding
exactly those arrays); with `fix=True`, under either policy, every
successful run pairs the field with exactly the repaired mesh the
second GridField pass was run on — the selected, merged, renormalized
mesh under the containment policy, the selected renormalized component
under the single-pick policy; with `return_mesh=False` only the field
is returned in all modes. -/
theorem return_mesh_shapes (gf : List Vtx → List Tri → ℕ → SField)
    (mc : SField → ℚ → Option Mesh) (sp : Mesh → List Mesh)
    (V : List Vtx) (F : List Tri) (size : ℕ) (level : ℚ) (nf : Bool) :
    (compute gf mc sp V F size false level true nf =
       .ok (.fieldMesh (gf V F size) ⟨V, F⟩))
    ∧ (compute gf mc sp V F size false level false nf =
       .ok (.field (gf V F size)))
    ∧ (∀ r, compute gf mc sp V F size true level true nf = .ok r →
        ∃ m, r = .fieldMesh (gf m.vertices m.faces size) m)
    ∧ (∀ soup, mc (absField (gf V F size)) level = some soup →
        (filterKept (sp soup) ≠ [] →
          compute gf mc sp V F size true level true true =
            .ok (.fieldMesh
                  (gf (renormMesh size (concatMeshes (filterKept (sp soup)))).vertices
                      (renormMesh size (concatMeshes (filterKept (sp soup)))).faces size)
                  (renormMesh size (concatMeshes (filterKept (sp soup)))))
          ∧ compute gf mc sp V F size true level false true =
            .ok (.field
                  (gf (renormMesh size (concatMeshes (filterKept (sp soup)))).vertices
                      (renormMesh size (concatMeshes (filterKept (sp soup)))).faces size)))
        ∧ (∀ i, argmaxQ ((sp soup).map maxExtent) = some i →
          compute gf mc sp V F size true level true false =
            .ok (.fieldMesh
                  (gf (renormMesh size ((sp soup).getD i mDefault)).vertices
                      (renormMesh size ((sp soup).getD i mDefault)).faces size)
                  (renormMesh size ((sp soup).getD i mDefault)))
          ∧ compute gf mc sp V F size true level false false =
            .ok (.field
                  (gf (renormMesh size ((sp soup).getD i mDefault)).vertices
                      (renormMesh size ((sp soup).getD i mDefault)).faces size)))) := by
  refine ⟨rfl, rfl, ?_, ?_⟩
  · intro r hr
    cases hmc : mc (absField (gf V F size)) level with
    | none =>
      rw [compute_mc_none gf mc sp V F size level true nf hmc] at hr
      exact absurd hr (by simp)
    | some soup =>
      cases nf with
      | true =>
        by_cases hk : filterKept (sp soup) = []
        · rw [compute_containment_err gf mc sp V F size level true soup hmc hk] at hr
          exact absurd hr (by simp)
        · rw [compute_containment_ok gf mc sp V F size level true soup hmc hk] at hr
          injection hr with h
          refine ⟨renormMesh size (concatMeshes (filterKept (sp soup))), ?_⟩
          rw [← h]
          rfl
      | false =>
        cases ha : argmaxQ ((sp soup).map maxExtent) with
        | none =>
          rw [compute_singlepick_err gf mc sp V F size level true soup hmc ha] at hr
          exact absurd hr (by simp)
        | some i =>
          rw [compute_singlepick_ok gf mc sp V F size level true soup i hmc ha] at hr
          injection hr with h
          refine ⟨renormMesh size ((sp soup).getD i mDefault), ?_⟩
          rw [← h]
          rfl
  · intro soup hmc
    refine ⟨?_, ?_⟩
    · intro hk
      refine ⟨?_, ?_⟩
      · rw [compute_containment_ok gf mc sp V F size level true soup hmc hk]
        rfl
      · rw [compute_containment_ok gf mc sp V F size level false soup hmc hk]
        rfl
    · intro i ha
      refine ⟨?_, ?_⟩
      · rw [compute_singlepick_ok gf mc sp V F size level true soup i hmc ha]
        rfl
      · rw [compute_singlepick_ok gf mc sp V F size level false soup i hmc ha]
        rfl

/-- Witness for C9 at concrete instantiations of both policies: the
surviving mesh is returned together with its second-pass field. -/
theorem return_mesh_shapes_witness :
    (compute (fun _ _ _ => []) (fun _ _ => some mDefault)
        (fun _ => [⟨[(1, 2, 3)], [(0, 0, 0)]⟩]) [] [] 3 true 0 true true =
      .ok (.fieldMesh
            ((fun _ _ _ => ([] : SField))
              (renormMesh 3 (concatMeshes (filterKept
                ((fun _ => [(⟨[(1, 2, 3)], [(0, 0, 0)]⟩ : Mesh)]) mDefault)))).vertices
              (renormMesh 3 (concatMeshes (filterKept
                ((fun _ => [(⟨[(1, 2, 3)], [(0, 0, 0)]⟩ : Mesh)]) mDefault)))).faces 3)
            (renormMesh 3 (concatMeshes (filterKept
              ((fun _ => [(⟨[(1, 2, 3)], [(0, 0, 0)]⟩ : Mesh)]) mDefault))))))
    ∧ (compute (fun _ _ _ => []) (fun _ _ => some mDefault)
        (fun _ => [⟨[(1, 2, 3)], [(0, 0, 0)]⟩]) [] [] 3 true 0 true false =
      .ok (.fieldMesh
            ((fun _ _ _ => ([] : SField))
              (renormMesh 3 (((fun _ => [(⟨[(1, 2, 3)], [(0, 0, 0)]⟩ : Mesh)]) mDefault).getD 0
                mDefault)).vertices
              (renormMesh 3 (((fun _ => [(⟨[(1, 2, 3)], [(0, 0, 0)]⟩ : Mesh)]) mDefault).getD 0
                mDefault)).faces 3)
            (renormMesh 3 (((fun _ => [(⟨[(1, 2, 3)], [(0, 0, 0)]⟩ : Mesh)]) mDefault).getD 0
              mDefault)))) :=
  ⟨(((return_mesh_shapes (fun _ _ _ => []) (fun _ _ => some mDefault)
        (fun _ => [⟨[(1, 2, 3)], [(0, 0, 0)]⟩]) [] [] 3 0 true).2.2.2
      mDefault rfl).1 (by decide)).1,
   (((return_mesh_shapes (fun _ _ _ => []) (fun _ _ => some mDefault)
        (fun _ => [⟨[(1, 2, 3)], [(0, 0, 0)]⟩]) [] [] 3 0 false).2.2.2
      mDefault rfl).2 0 rfl).1⟩

/-- C1: With the containment policy, component `i` of the split
components is kept iff there is no other component whose bounding box
contains component `i`'s bounding box on all three axes; in particular
a component whose box lies strictly inside another present component's
box always has its keep flag cleared, and the kept list consists exactly
of the components whose keep flag holds. -/
theorem containment_keep_iff (cs : List Mesh) (i : ℕ) (h : i < cs.length) :
    (keepFlag cs i = true ↔
      ∀ j, j < cs.length → j ≠ i →
        boundsContained (cs.getD j mDefault) (cs.getD i mDefault) = false)
    ∧ (∀ j, j < cs.length → j ≠ i →
        boundsContained (cs.getD j mDefault) (cs.getD i mDefault) = true →
        keepFlag cs i = false)
    ∧ filterKept cs =
        ((List.range cs.length).filter (keepFlag cs)).map
          (fun k => cs.getD k mDefault) := by
  refine ⟨?_, ?_, filterKept_eq_positions cs⟩
  · rw [keepFlag_eq_specKeep]
    unfold specKeep
    exact decide_eq_true_iff
  · intro j hj hne hbc
    rw [keepFlag_eq_specKeep]
    unfold specKeep
    rw [decide_eq_false_iff_not]
    intro hall
    have hfalse := hall j hj hne
    rw [hfalse] at hbc
    exact Bool.noConfusion hbc

/-- Witness for C1 on two components, the first strictly inside the
second. -/
theorem containment_keep_iff_witness :
    (keepFlag [⟨[(0, 0, 0), (1, 1, 1)], []⟩, ⟨[(-2, -2, -2), (2, 2, 2)], []⟩] 0 = true ↔
      ∀ j, j < ([⟨[(0, 0, 0), (1, 1, 1)], []⟩,
            (⟨[(-2, -2, -2), (2, 2, 2)], []⟩ : Mesh)] : List Mesh).length → j ≠ 0 →
        boundsContained
          (([⟨[(0, 0, 0), (1, 1, 1)], []⟩,
             (⟨[(-2, -2, -2), (2, 2, 2)], []⟩ : Mesh)] : List Mesh).getD j mDefault)
          (([⟨[(0, 0, 0), (1, 1, 1)], []⟩,
             (⟨[(-2, -2, -2), (2, 2, 2)], []⟩ : Mesh)] : List Mesh).getD 0 mDefault) = false)
    ∧ (∀ j, j < ([⟨[(0, 0, 0), (1, 1, 1)], []⟩,
          (⟨[(-2, -2, -2), (2, 2, 2)], []⟩ : Mesh)] : List Mesh).length → j ≠ 0 →
        boundsContained
          (([⟨[(0, 0, 0), (1, 1, 1)], []⟩,
             (⟨[(-2, -2, -2), (2, 2, 2)], []⟩ : Mesh)] : List Mesh).getD j mDefault)
          (([⟨[(0, 0, 0), (1, 1, 1)], []⟩,
             (⟨[(-2, -2, -2), (2, 2, 2)], []⟩ : Mesh)] : List Mesh).getD 0 mDefault) = true →
        keepFlag [⟨[(0, 0, 0), (1, 1, 1)], []⟩, ⟨[(-2, -2, -2), (2, 2, 2)], []⟩] 0 = false)
    ∧ filterKept [⟨[(0, 0, 0), (1, 1, 1)], []⟩, ⟨[(-2, -2, -2), (2, 2, 2)], []⟩] =
        ((List.range ([⟨[(0, 0, 0), (1, 1, 1)], []⟩,
            (⟨[(-2, -2, -2), (2, 2, 2)], []⟩ : Mesh)] : List Mesh).length).filter
          (keepFlag [⟨[(0, 0, 0), (1, 1, 1)], []⟩, ⟨[(-2, -2, -2), (2, 2, 2)], []⟩])).map
          (fun k => ([⟨[(0, 0, 0), (1, 1, 1)], []⟩,
             (⟨[(-2, -2, -2), (2, 2, 2)], []⟩ : Mesh)] : List Mesh).getD k mDefault) :=
  containment_keep_iff
    [⟨[(0, 0, 0), (1, 1, 1)], []⟩, ⟨[(-2, -2, -2), (2, 2, 2)], []⟩] 0 (by decide)

/-- C10: bounding-box containment is tested with strict inequalities on
both the min and the max corner, so two components with exactly equal
bounding boxes contain neither each other, and when the split yields
exactly those two components both keep flags hold. -/
theorem equal_bounds_both_kept (A B : Mesh)
    (hmin : bbmin A = bbmin B) (hmax : bbmax A = bbmax B) :
    boundsContained A B = false ∧ boundsContained B A = false ∧
      keepFlags [A, B] = [true, true] := by
  have hself : ∀ lo hi : Vtx, ptInside lo hi lo = false := by
    intro lo hi
    simp [ptInside]
  have h1 : boundsContained A B = false := by
    unfold boundsContained
    rw [← hmin, hself]
    rfl
  have h2 : boundsContained B A = false := by
    unfold boundsContained
    rw [hmin, hself]
    rfl
  refine ⟨h1, h2, ?_⟩
  simp [keepFlags, keepFlag, containsHit, List.range_succ, h1, h2]

/-- Witness for C10 on two meshes with identical bounding boxes but
different vertex order and faces. -/
theorem equal_bounds_both_kept_witness :
    boundsContained ⟨[(0, 0, 0), (1, 1, 1)], []⟩ ⟨[(1, 1, 1), (0, 0, 0)], [(0, 1, 1)]⟩ = false
    ∧ boundsContained ⟨[(1, 1, 1), (0, 0, 0)], [(0, 1, 1)]⟩ ⟨[(0, 0, 0), (1, 1, 1)], []⟩ = false
    ∧ keepFlags [⟨[(0, 0, 0), (1, 1, 1)], []⟩, ⟨[(1, 1, 1), (0, 0, 0)], [(0, 1, 1)]⟩] =
        [true, true] :=
  equal_bounds_both_kept ⟨[(0, 0, 0), (1, 1, 1)], []⟩ ⟨[(1, 1, 1), (0, 0, 0)], [(0, 1, 1)]⟩
    (by decide) (by decide)

/-- C5 (code bug): `compute.py` performs no emptiness detection between
splitting and merging. When the splitter returns zero components, the
pipeline under either policy produces the incidental library crash
(`trimesh.util.concatenate` on an empty list / `np.argmax` of an empty
sequence) instead of a stage-identifying error; moreover the containment
rule itself can never discard every component of a nonempty component
list (a component of maximal extent sum always survives), so the claimed
`NoSurvivingComponent` detection could never trigger at all. -/
theorem empty_components_crash :
    (∀ (gf : List Vtx → List Tri → ℕ → SField) (mc : SField → ℚ → Option Mesh)
        (sp : Mesh → List Mesh) (V : List Vtx) (F : List Tri)
        (size : ℕ) (level : ℚ) (rm nf : Bool) (soup : Mesh),
        mc (absField (gf V F size)) level = some soup → sp soup = [] →
        compute gf mc sp V F size true level rm nf = .error .libraryCrash)
    ∧ (∀ cs : List Mesh, cs ≠ [] → filterKept cs ≠ []) :=
  ⟨fun gf mc sp V F size level rm nf soup h hsp =>
      compute_empty_components gf mc sp V F size level rm nf soup h hsp,
    filterKept_ne_nil⟩

/-- Witness for C5: a concrete zero-component run crashes, and a
concrete nonempty component list keeps a survivor. -/
theorem empty_components_crash_witness :
    compute (fun _ _ _ => []) (fun _ _ => some mDefault) (fun _ => [])
        [] [] 3 true 0 true true = .error .libraryCrash
    ∧ filterKept [⟨[(1, 2, 3)], [(0, 0, 0)]⟩] ≠ [] :=
  ⟨empty_components_crash.1 (fun _ _ _ => []) (fun _ _ => some mDefault)
      (fun _ => []) [] [] 3 0 true true mDefault rfl rfl,
    empty_components_crash.2 [⟨[(1, 2, 3)], [(0, 0, 0)]⟩] (by decide)⟩

/-- The long thin component: bounding box `(0,0,0)–(10,0,0)`, largest
extent `10`, squared diagonal `100`. -/
def compA : Mesh := ⟨[(0, 0, 0), (10, 0, 0)], [(0, 1, 1)]⟩

/-- The cube-like component: bounding box `(0,0,0)–(9,9,9)`, largest
extent `9`, squared diagonal `243`. -/
def compB : Mesh := ⟨[(0, 0, 0), (9, 9, 9)], [(0, 1, 1)]⟩

/-- C2 as stated is false: with the single-pick policy active the
pipeline keeps the component maximising the largest bounding-box extent
(`(bbmax - bbmin).max()`), not the one with the largest bounding-box
diagonal. When the split yields `compA` and `compB`, the pipeline keeps
`compA` (extent 10) although `compB`'s diagonal is strictly larger
(diagonal² 243 > 100), and the two candidate results differ. -/
theorem singlepick_not_largest_diagonal :
    diagSq compA < diagSq compB ∧
    compute (fun _ _ _ => []) (fun _ _ => some mDefault) (fun _ => [compA, compB])
        [] [] 3 true 0 true false =
      .ok (.fieldMesh [] (renormMesh 3 compA)) ∧
    renormMesh 3 compA ≠ renormMesh 3 compB := by
  refine ⟨?_, ?_, ?_⟩
  · norm_num [diagSq, compA, compB, bbmax, bbmin, vmax, vmin, max_def, min_def]
  · rw [compute_singlepick_ok (fun _ _ _ => []) (fun _ _ => some mDefault)
      (fun _ => [compA, compB]) [] [] 3 0 true mDefault 0 rfl ?_]
    · rfl
    · norm_num [argmaxQ, maxExtent, compA, compB, bbmax, bbmin, vmax, vmin,
        max_def, min_def]
  · norm_num [renormMesh, renormCoord, compA, compB]

/-- C2 (amended): With the single-pick policy active, the pipeline keeps
exactly one component — the first component attaining the maximum
bounding-box extent (`(bbmax - bbmin).max()`) among the split
components, discarding all others — and returns that component
renormalized (paired with its second-pass field when requested). -/
theorem singlepick_keeps_first_max_extent
    (gf : List Vtx → List Tri → ℕ → SField)
    (mc : SField → ℚ → Option Mesh) (sp : Mesh → List Mesh)
    (V : List Vtx) (F : List Tri) (size : ℕ) (level : ℚ) (rm : Bool)
    (soup : Mesh)
    (h : mc (absField (gf V F size)) level = some soup)
    (hne : sp soup ≠ []) :
    ∃ i, i < (sp soup).length ∧
      (∀ j, j < (sp soup).length →
        maxExtent ((sp soup).getD j mDefault) ≤ maxExtent ((sp soup).getD i mDefault)) ∧
      (∀ j, j < i →
        maxExtent ((sp soup).getD j mDefault) < maxExtent ((sp soup).getD i mDefault)) ∧
      compute gf mc sp V F size true level rm false =
        .ok (if rm then
              Ret.fieldMesh
                (gf (renormMesh size ((sp soup).getD i mDefault)).vertices
                    (renormMesh size ((sp soup).getD i mDefault)).faces size)
                (renormMesh size ((sp soup).getD i mDefault))
            else
              Ret.field
                (gf (renormMesh size ((sp soup).getD i mDefault)).vertices
                    (renormMesh size ((sp soup).getD i mDefault)).faces size)) := by
  obtain ⟨i, hi⟩ : ∃ i, argmaxQ ((sp soup).map maxExtent) = some i := by
    cases ha : argmaxQ ((sp soup).map maxExtent) with
    | none =>
      exact absurd (List.map_eq_nil_iff.mp ((argmaxQ_eq_none_iff _).mp ha)) hne
    | some i => exact ⟨i, rfl⟩
  obtain ⟨hlen, hmax2, hfirst⟩ := argmaxQ_spec _ _ hi
  rw [List.length_map] at hlen
  refine ⟨i, hlen, ?_, ?_,
    compute_singlepick_ok gf mc sp V F size level rm soup i h hi⟩
  · intro j hj
    have hle := hmax2 j (by rw [List.length_map]; exact hj)
    rwa [getD_map_q _ _ _ hj, getD_map_q _ _ _ hlen] at hle
  · intro j hj
    have hlt := hfirst j hj
    have hjlen : j < (sp soup).length := lt_trans hj hlen
    rwa [getD_map_q _ _ _ hjlen, getD_map_q _ _ _ hlen] at hlt

/-- Witness for the amended C2 at the two-component instantiation. -/
theorem singlepick_keeps_first_max_extent_witness :
    ∃ i, i < (((fun _ => [compA, compB]) mDefault : List Mesh)).length ∧
      (∀ j, j < (((fun _ => [compA, compB]) mDefault : List Mesh)).length →
        maxExtent ((((fun _ => [compA, compB]) mDefault : List Mesh)).getD j mDefault) ≤
          maxExtent ((((fun _ => [compA, compB]) mDefault : List Mesh)).getD i mDefault)) ∧
      (∀ j, j < i →
        maxExtent ((((fun _ => [compA, compB]) mDefault : List Mesh)).getD j mDefault) <
          maxExtent ((((fun _ => [compA, compB]) mDefault : List Mesh)).getD i mDefault)) ∧
      compute (fun _ _ _ => []) (fun _ _ => some mDefault) (fun _ => [compA, compB])
          [] [] 3 true 0 true false =
        .ok (if true then
              Ret.fieldMesh
                ((fun _ _ _ => ([] : SField))
                  (renormMesh 3 ((((fun _ => [compA, compB]) mDefault : List Mesh)).getD i
                    mDefault)).vertices
                  (renormMesh 3 ((((fun _ => [compA, compB]) mDefault : List Mesh)).getD i
                    mDefault)).faces 3)
                (renormMesh 3 ((((fun _ => [compA, compB]) mDefault : List Mesh)).getD i
                  mDefault))
            else
              Ret.field
                ((fun _ _ _ => ([] : SField))
                  (renormMesh 3 ((((fun _ => [compA, compB]) mDefault : List Mesh)).getD i
                    mDefault)).vertices
                  (renormMesh 3 ((((fun _ => [compA, compB]) mDefault : List Mesh)).getD i
                    mDefault)).faces 3)) :=
  singlepick_keeps_first_max_extent (fun _ _ _ => []) (fun _ _ => some mDefault)
    (fun _ => [compA, compB]) [] [] 3 0 true mDefault rfl (by decide)

/-- C8 as stated is false: the `def compute(...)` line of
`src/mesh2sdf/compute.py` does not carry a `shell_policy` parameter; its
seventh parameter is the boolean `new_fix` with default `True`. -/
theorem signature_mismatch : computeSignature ≠ computeSignatureSpec := by decide

/-- C8 (amended): the public entry point is
`compute(vertices, faces, size=128, fix=False, level=0.015,
return_mesh=False, new_fix=True)`: the first six parameters and their
defaults match the spec's list, there are exactly seven parameters, no
parameter is named `shell_policy`, and the policy selector is the
boolean `new_fix` defaulting to `True` (containment policy; `False`
selects the largest-extent single pick). -/
theorem signature_actual :
    computeSignature.take 6 = computeSignatureSpec.take 6 ∧
    computeSignature.getD 6 ("", none) = ("new_fix", some "True") ∧
    computeSignature.length = 7 ∧
    ¬ ∃ p ∈ computeSignature, p.1 = "shell_policy" := by decide
